import Mathlib

/-!
A shallow embedding of `capnslog/logmap.go` (the level/registry core of the
logging package) together with proofs of its specification claims.

Modelling conventions:
* Go `LogLevel` (an `int8`) is modelled as `Int`; only the seven named
  constants `-1 .. 5` are valid values.
* Go maps (`map[string]...`) are modelled as association lists with
  overwrite-on-insert (`ainsert`) and first-match lookup (`alookup`); keys
  produced by `ainsert` are unique, matching Go map key uniqueness.
* A Go `panic` is modelled as `Option.none`; a Go `error` return is modelled
  with `Except String`, carrying the exact message string built by the code.
* The process-global registry `logger.repoMap` is threaded explicitly as a
  `RepoMap` value; a `*packageLogger` handle is modelled as its access path
  `(repo, pkg)` into that state, and the Go field assignment `p.level = l`
  through such a pointer is modelled by `setLevelViaHandle`.
-/

namespace Capnslog

/-- Go type `LogLevel int8`; modelled as an integer. -/
abbrev LogLevel := Int

/-- `CRITICAL LogLevel = -1`. -/
def CRITICAL : LogLevel := -1

/-- `ERROR = 0`. -/
def ERROR : LogLevel := 0

/-- `WARNING = 1`. -/
def WARNING : LogLevel := 1

/-- `NOTICE = 2`. -/
def NOTICE : LogLevel := 2

/-- `INFO = 3`. -/
def INFO : LogLevel := 3

/-- `DEBUG = 4`. -/
def DEBUG : LogLevel := 4

/-- `TRACE = 5`. -/
def TRACE : LogLevel := 5

/-- `func (l LogLevel) Char() string`: single-character representation of the
log level.  `none` models the `panic("Unhandled loglevel")` default branch. -/
def LogLevel.Char (l : LogLevel) : Option String :=
  if l = CRITICAL then some "C"
  else if l = ERROR then some "E"
  else if l = WARNING then some "W"
  else if l = NOTICE then some "N"
  else if l = INFO then some "I"
  else if l = DEBUG then some "D"
  else if l = TRACE then some "T"
  else none

/-- `func ParseLevel(s string) (LogLevel, error)`: translates loglevel strings
into their corresponding levels.  The `switch` cases are rendered as an
if-chain; the fall-through returns `(CRITICAL, errors.New(...))`, modelled as
the error alone since Go callers must not use the level on error. -/
def ParseLevel (s : String) : Except String LogLevel :=
  if s = "CRITICAL" ∨ s = "C" then .ok CRITICAL
  else if s = "ERROR" ∨ s = "0" ∨ s = "E" then .ok ERROR
  else if s = "WARNING" ∨ s = "1" ∨ s = "W" then .ok WARNING
  else if s = "NOTICE" ∨ s = "2" ∨ s = "N" then .ok NOTICE
  else if s = "INFO" ∨ s = "3" ∨ s = "I" then .ok INFO
  else if s = "DEBUG" ∨ s = "4" ∨ s = "D" then .ok DEBUG
  else if s = "TRACE" ∨ s = "5" ∨ s = "T" then .ok TRACE
  else .error ("couldn't parse log level " ++ s)

/-- Helper for `goSplit`: split a character list around every occurrence of
`sep`, Go `strings.Split` semantics (the empty list splits to `[[]]`). -/
def splitList (sep : Char) : List Char → List (List Char)
  | [] => [[]]
  | c :: cs =>
    match splitList sep cs with
    | [] => [[c]]
    | t :: ts => if c = sep then [] :: t :: ts else (c :: t) :: ts

/-- Go `strings.Split(s, sep)` for a single-character separator (the only form
the source uses: `","` and `"="`). -/
def goSplit (s : String) (sep : Char) : List String :=
  (splitList sep s.data).map String.mk

instance {ε α : Type} [DecidableEq ε] [DecidableEq α] : DecidableEq (Except ε α)
  | .error a, .error b =>
    if h : a = b then .isTrue (by rw [h]) else .isFalse (by intro hc; cases hc; exact h rfl)
  | .error _, .ok _ => .isFalse (by intro hc; cases hc)
  | .ok _, .error _ => .isFalse (by intro hc; cases hc)
  | .ok a, .ok b =>
    if h : a = b then .isTrue (by rw [h]) else .isFalse (by intro hc; cases hc; exact h rfl)

/-- `type packageLogger struct { pkg string; level LogLevel }`: the fields are
those assigned by the composite literal in `NewPackageLogger` (the type's own
file is outside the registry core; its fields are fixed by that literal). -/
structure packageLogger where
  pkg : String
  level : LogLevel
deriving DecidableEq, Repr

/-- First-match lookup in an association list (Go map read `m[k]`). -/
def alookup {α : Type} : List (String × α) → String → Option α
  | [], _ => none
  | (k, v) :: rest, key => if k = key then some v else alookup rest key

/-- Overwrite-or-append insertion (Go map write `m[k] = v`). -/
def ainsert {α : Type} : List (String × α) → String → α → List (String × α)
  | [], key, v => [(key, v)]
  | (k, w) :: rest, key, v =>
    if k = key then (k, v) :: rest else (k, w) :: ainsert rest key v

/-- `type repoLogger map[string]*packageLogger`. -/
abbrev RepoLoggerMap := List (String × packageLogger)

/-- The registry state `logger.repoMap : map[string]repoLogger`.  The Go nil
map before lazy initialization behaves as the empty map for reads, so both are
modelled as `[]`. -/
abbrev RepoMap := List (String × RepoLoggerMap)

/-- `func (r repoLogger) setRepoLogLevelInternal(l LogLevel)`: sets every
contained package logger's level to `l`. -/
def setRepoLogLevelInternal (r : RepoLoggerMap) (l : LogLevel) : RepoLoggerMap :=
  r.map (fun kp => (kp.1, { pkg := kp.2.pkg, level := l }))

/-- `func SetGlobalLogLevel(l LogLevel)`: runs `setRepoLogLevelInternal` on
every registered repository. -/
def SetGlobalLogLevel (st : RepoMap) (l : LogLevel) : RepoMap :=
  st.map (fun kr => (kr.1, setRepoLogLevelInternal kr.2 l))

/-- `func RepoLogger(repo string) (repoLogger, error)`: map lookup; the error
message is `"no packages registered for repo " + repo`.  The unchanged
registry state is returned alongside to make the absence of side effects part
of the model. -/
def RepoLogger (st : RepoMap) (repo : String) :
    RepoMap × Except String RepoLoggerMap :=
  match alookup st repo with
  | none => (st, .error ("no packages registered for repo " ++ repo))
  | some r => (st, .ok r)

/-- `func MustRepoLogger(repo string) repoLogger`: same lookup, but the error
case panics (`none`). -/
def MustRepoLogger (st : RepoMap) (repo : String) :
    Option (RepoMap × RepoLoggerMap) :=
  match RepoLogger st repo with
  | (_, .error _) => none
  | (st2, .ok r) => some (st2, r)

/-- Loop body of `ParseLogLevelConfig` over the comma-separated tokens,
carrying the accumulated `out` map. -/
def parseLogLevelConfigAux (out : List (String × LogLevel)) :
    List String → Except String (List (String × LogLevel))
  | [] => .ok out
  | setstring :: rest =>
    match goSplit setstring '=' with
    | [pkg, lvl] =>
      match ParseLevel lvl with
      | .error e => .error e
      | .ok l => parseLogLevelConfigAux (ainsert out pkg l) rest
    | _ => .error ("oddly structured `pkg=level` option: " ++ setstring)

/-- `func (r repoLogger) ParseLogLevelConfig(conf string)`: splits `conf` on
`,`, requires each token to split on `=` into exactly two parts (the
`[pkg, lvl]` pattern is the `len(setting) != 2` check), parses the level part,
and accumulates a map.  The receiver `r` is unused in the Go body, so the
model takes none. -/
def ParseLogLevelConfig (conf : String) :
    Except String (List (String × LogLevel)) :=
  parseLogLevelConfigAux [] (goSplit conf ',')

/-- One iteration of the `SetLogLevel` loop: `l, ok := r[k]; if !ok
{ continue }; l.level = v` — the pointer write updates the entry in place. -/
def setLogLevelStep (acc : RepoLoggerMap) (k : String) (v : LogLevel) :
    RepoLoggerMap :=
  match alookup acc k with
  | none => acc
  | some _ => acc.map (fun kp =>
      if kp.1 = k then (kp.1, { pkg := kp.2.pkg, level := v }) else kp)

/-- `func (r repoLogger) SetLogLevel(m map[string]LogLevel)`: if `"*"` is a
key of `m` it is applied first as a blanket `setRepoLogLevelInternal`; then
every key of `m` is applied, unknown package names skipped. -/
def SetLogLevel (r : RepoLoggerMap) (m : List (String × LogLevel)) :
    RepoLoggerMap :=
  let r1 := match alookup m "*" with
    | some l => setRepoLogLevelInternal r l
    | none => r
  m.foldl (fun acc kv => setLogLevelStep acc kv.1 kv.2) r1

/-- `func NewPackageLogger(repo string, pkg string) (p *packageLogger)`:
lazily creates the repository and the package (level `INFO`), returning the
handle to the package logger, modelled as its access path `(repo, pkg)`. -/
def NewPackageLogger (st : RepoMap) (repo pkg : String) :
    RepoMap × (String × String) :=
  let st1 := match alookup st repo with
    | none => ainsert st repo []
    | some _ => st
  let r := (alookup st1 repo).getD []
  let st2 := match alookup r pkg with
    | none => ainsert st1 repo (ainsert r pkg ⟨pkg, INFO⟩)
    | some _ => st1
  (st2, (repo, pkg))

/-- Reading `p.level` through a handle `h = (repo, pkg)`. -/
def readLevel (st : RepoMap) (h : String × String) : Option LogLevel :=
  (alookup st h.1).bind (fun r => (alookup r h.2).map packageLogger.level)

/-- The Go field assignment `p.level = l` through a handle `h = (repo, pkg)`:
updates the pointed-to package logger in place. -/
def setLevelViaHandle (st : RepoMap) (h : String × String) (l : LogLevel) :
    RepoMap :=
  st.map (fun kr =>
    if kr.1 = h.1 then
      (kr.1, kr.2.map (fun kp =>
        if kp.1 = h.2 then (kp.1, { pkg := kp.2.pkg, level := l }) else kp))
    else kr)

/-- Level of the package named `k` in a repo logger, if registered. -/
def readPkgLevel (r : RepoLoggerMap) (k : String) : Option LogLevel :=
  (alookup r k).map packageLogger.level

/-! ### Association-list lemmas -/

theorem alookup_ainsert_self {α : Type} (xs : List (String × α)) (k : String)
    (v : α) : alookup (ainsert xs k v) k = some v := by
  induction xs with
  | nil => simp [ainsert, alookup]
  | cons hd tl ih =>
    by_cases h : hd.1 = k
    · simp [ainsert, alookup, h]
    · simp [ainsert, alookup, h, ih]

theorem alookup_ainsert_ne {α : Type} (xs : List (String × α)) (k k' : String)
    (v : α) (h : k ≠ k') : alookup (ainsert xs k v) k' = alookup xs k' := by
  induction xs with
  | nil => simp [ainsert, alookup, h]
  | cons hd tl ih =>
    by_cases hk : hd.1 = k
    · simp [ainsert, alookup, hk, h]
    · simp [ainsert, alookup, hk, ih]

theorem ainsert_ainsert_self {α : Type} (xs : List (String × α)) (k : String)
    (v w : α) : ainsert (ainsert xs k v) k w = ainsert xs k w := by
  induction xs with
  | nil => simp [ainsert]
  | cons hd tl ih =>
    by_cases h : hd.1 = k
    · simp [ainsert, h]
    · simp [ainsert, h, ih]

theorem alookup_map_snd {α β : Type} (f : String × α → β)
    (xs : List (String × α)) (k : String) :
    alookup (xs.map (fun p => (p.1, f p))) k =
      (alookup xs k).map (fun b => f (k, b)) := by
  induction xs with
  | nil => simp [alookup]
  | cons hd tl ih =>
    obtain ⟨a, b⟩ := hd
    by_cases h : a = k
    · simp [alookup, h]
    · simp [alookup, h, ih]

theorem alookup_map_ite {α : Type} (xs : List (String × α)) (k0 k : String)
    (g : String × α → α) :
    alookup (xs.map (fun kp => if kp.1 = k0 then (kp.1, g kp) else kp)) k =
      if k0 = k then (alookup xs k).map (fun b => g (k, b))
      else alookup xs k := by
  induction xs with
  | nil => simp [alookup]
  | cons hd tl ih =>
    obtain ⟨a, b⟩ := hd
    simp only [List.map_cons]
    by_cases h0 : a = k0
    · rw [if_pos (show (a, b).1 = k0 from h0)]
      by_cases hk : a = k
      · have hz : k0 = k := h0.symm.trans hk
        simp [alookup, hk, hz]
      · have hz : ¬ k0 = k := fun he => hk (h0.trans he)
        simp [alookup, hk, hz, ih]
    · rw [if_neg (show ¬ (a, b).1 = k0 from h0)]
      by_cases hk : a = k
      · have hz : ¬ k0 = k := fun he => h0 (hk.trans he.symm)
        simp [alookup, hk, hz]
      · simp [alookup, h0, hk, ih]

theorem alookup_eq_none_of_not_mem {α : Type} (xs : List (String × α))
    (k : String) (h : k ∉ xs.map Prod.fst) : alookup xs k = none := by
  induction xs with
  | nil => simp [alookup]
  | cons hd tl ih =>
    simp only [List.map_cons, List.mem_cons] at h
    push_neg at h
    have : hd.1 ≠ k := fun he => h.1 he.symm
    simp [alookup, this, ih h.2]

theorem alookup_append {α : Type} (xs ys : List (String × α)) (k : String) :
    alookup (xs ++ ys) k =
      match alookup xs k with
      | some v => some v
      | none => alookup ys k := by
  induction xs with
  | nil => simp [alookup]
  | cons hd tl ih =>
    by_cases h : hd.1 = k
    · simp [alookup, h]
    · simp [alookup, h, ih]

theorem alookup_reverse_of_nodup {α : Type} (xs : List (String × α))
    (h : (xs.map Prod.fst).Nodup) (k : String) :
    alookup xs.reverse k = alookup xs k := by
  induction xs with
  | nil => simp
  | cons hd tl ih =>
    obtain ⟨a, b⟩ := hd
    simp only [List.map_cons, List.nodup_cons] at h
    rw [List.reverse_cons, alookup_append, ih h.2]
    by_cases hk : a = k
    · rw [alookup_eq_none_of_not_mem tl k (hk ▸ h.1)]
      simp [alookup, hk]
    · cases htl : alookup tl k <;> simp [alookup, hk, htl]

/-! ### Behaviour of the level-setting operations -/

theorem readPkgLevel_setRepoLogLevelInternal (r : RepoLoggerMap) (l : LogLevel)
    (k : String) :
    readPkgLevel (setRepoLogLevelInternal r l) k =
      (readPkgLevel r k).map (fun _ => l) := by
  unfold readPkgLevel setRepoLogLevelInternal
  rw [alookup_map_snd]
  cases alookup r k <;> rfl

theorem readPkgLevel_setLogLevelStep (acc : RepoLoggerMap) (k0 k : String)
    (v : LogLevel) :
    readPkgLevel (setLogLevelStep acc k0 v) k =
      if k0 = k then (readPkgLevel acc k).map (fun _ => v)
      else readPkgLevel acc k := by
  cases h0 : alookup acc k0 with
  | none =>
    by_cases hk : k0 = k
    · subst hk
      simp [setLogLevelStep, readPkgLevel, h0]
    · simp [setLogLevelStep, h0, hk]
  | some p =>
    have hstep : setLogLevelStep acc k0 v = acc.map (fun kp =>
        if kp.1 = k0 then (kp.1, { pkg := kp.2.pkg, level := v }) else kp) := by
      simp [setLogLevelStep, h0]
    rw [hstep]
    unfold readPkgLevel
    rw [alookup_map_ite]
    by_cases hk : k0 = k
    · subst hk
      cases alookup acc k0 <;> simp
    · simp [hk]

theorem readPkgLevel_foldl_steps (m : List (String × LogLevel))
    (acc : RepoLoggerMap) (k : String) :
    readPkgLevel (m.foldl (fun a kv => setLogLevelStep a kv.1 kv.2) acc) k =
      match alookup m.reverse k with
      | some v => (readPkgLevel acc k).map (fun _ => v)
      | none => readPkgLevel acc k := by
  induction m generalizing acc with
  | nil => simp [alookup]
  | cons kv rest ih =>
    rw [List.foldl_cons, ih, List.reverse_cons, alookup_append]
    cases hr : alookup rest.reverse k with
    | some v =>
      rw [readPkgLevel_setLogLevelStep]
      by_cases hk : kv.1 = k
      · rw [if_pos hk]
        cases readPkgLevel acc k <;> simp
      · rw [if_neg hk]
    | none =>
      rw [readPkgLevel_setLogLevelStep]
      obtain ⟨a, b⟩ := kv
      by_cases hk : a = k
      · simp [alookup, hk]
      · simp [alookup, hk]

theorem readPkgLevel_mem_isSome (r : RepoLoggerMap) (k : String) :
    (readPkgLevel (setRepoLogLevelInternal r l) k).isSome =
      (readPkgLevel r k).isSome := by
  rw [readPkgLevel_setRepoLogLevelInternal]
  cases readPkgLevel r k <;> rfl

theorem foldl_steps_unknown (m : List (String × LogLevel)) (r : RepoLoggerMap)
    (h : ∀ kv ∈ m, alookup r kv.1 = none) :
    m.foldl (fun a kv => setLogLevelStep a kv.1 kv.2) r = r := by
  induction m with
  | nil => rfl
  | cons kv rest ih =>
    rw [List.foldl_cons]
    have hkv : alookup r kv.1 = none := h kv (List.mem_cons_self _ _)
    rw [show setLogLevelStep r kv.1 kv.2 = r from by simp [setLogLevelStep, hkv]]
    exact ih (fun kv' hm => h kv' (List.mem_cons_of_mem _ hm))

/-! ### Registration and handle access -/

theorem newPackageLogger_registered (st : RepoMap) (repo pkg : String) :
    ∃ r p, alookup (NewPackageLogger st repo pkg).1 repo = some r ∧
      alookup r pkg = some p := by
  cases h1 : alookup st repo with
  | none =>
    refine ⟨ainsert [] pkg ⟨pkg, INFO⟩, ⟨pkg, INFO⟩, ?_, ?_⟩
    · simp [NewPackageLogger, h1, alookup_ainsert_self, alookup]
    · simp [ainsert, alookup]
  | some r0 =>
    cases h2 : alookup r0 pkg with
    | none =>
      refine ⟨ainsert r0 pkg ⟨pkg, INFO⟩, ⟨pkg, INFO⟩, ?_,
        alookup_ainsert_self _ _ _⟩
      simp [NewPackageLogger, h1, h2, alookup_ainsert_self]
    | some p =>
      exact ⟨r0, p, by simp [NewPackageLogger, h1, h2], h2⟩

theorem newPackageLogger_idem (st : RepoMap) (repo pkg : String) :
    NewPackageLogger (NewPackageLogger st repo pkg).1 repo pkg =
      ((NewPackageLogger st repo pkg).1, (repo, pkg)) := by
  obtain ⟨r, p, h1, h2⟩ := newPackageLogger_registered st repo pkg
  generalize (NewPackageLogger st repo pkg).1 = st2 at h1 ⊢
  simp [NewPackageLogger, h1, h2]

theorem readLevel_newPackageLogger_isSome (st : RepoMap) (repo pkg : String) :
    (readLevel (NewPackageLogger st repo pkg).1 (repo, pkg)).isSome := by
  obtain ⟨r, p, h1, h2⟩ := newPackageLogger_registered st repo pkg
  simp [readLevel, h1, h2]

theorem readLevel_setLevelViaHandle (st : RepoMap) (h : String × String)
    (l : LogLevel) :
    readLevel (setLevelViaHandle st h l) h = (readLevel st h).map (fun _ => l) := by
  obtain ⟨repo, pkg⟩ := h
  unfold setLevelViaHandle readLevel
  rw [alookup_map_ite, if_pos rfl]
  cases h1 : alookup st repo with
  | none => rfl
  | some r =>
    simp only [Option.map_some', Option.some_bind]
    rw [alookup_map_ite, if_pos rfl]
    cases alookup r pkg <;> rfl

/-! ### Parse-error propagation -/

theorem parseAux_error_of_bad_token (ts : List String)
    (out : List (String × LogLevel)) (t : String) (ht : t ∈ ts)
    (hbad : (goSplit t '=').length ≠ 2) :
    ∃ e, parseLogLevelConfigAux out ts = .error e := by
  induction ts generalizing out with
  | nil => cases ht
  | cons s rest ih =>
    cases hs : goSplit s '=' with
    | nil =>
      exact ⟨"oddly structured `pkg=level` option: " ++ s,
        by simp [parseLogLevelConfigAux, hs]⟩
    | cons a as =>
      cases as with
      | nil =>
        exact ⟨"oddly structured `pkg=level` option: " ++ s,
          by simp [parseLogLevelConfigAux, hs]⟩
      | cons b bs =>
        cases bs with
        | cons c cs =>
          exact ⟨"oddly structured `pkg=level` option: " ++ s,
            by simp [parseLogLevelConfigAux, hs]⟩
        | nil =>
          have hts : t ∈ rest := by
            rcases List.mem_cons.mp ht with he | hm
            · exact absurd (by simp [he, hs]) hbad
            · exact hm
          cases hp : ParseLevel b with
          | error e =>
            exact ⟨e, by simp [parseLogLevelConfigAux, hs, hp]⟩
          | ok l =>
            obtain ⟨e, he⟩ := ih (ainsert out a l) hts
            exact ⟨e, by simp [parseLogLevelConfigAux, hs, hp, he]⟩

/-! ### Claim theorems -/

/-- C1: `NewPackageLogger` is idempotent registration: an unknown repository
is created (an empty repo logger, then the package at level `INFO`), an
unknown package within a known repository is created at level `INFO`, an
already-registered package leaves the state (hence its level) unchanged; the
returned handle is always the `(repo, pkg)` path, a second call returns the
same handle and the same state, and a level change through the handle is
observable through the equal handle of the other call. -/
theorem NewPackageLogger_idempotent_registration (st : RepoMap)
    (repo pkg : String) :
    ((NewPackageLogger st repo pkg).2 = (repo, pkg))
    ∧ (alookup st repo = none →
        (NewPackageLogger st repo pkg).1 =
          ainsert st repo [(pkg, ⟨pkg, INFO⟩)])
    ∧ (∀ r, alookup st repo = some r → alookup r pkg = none →
        (NewPackageLogger st repo pkg).1 =
          ainsert st repo (ainsert r pkg ⟨pkg, INFO⟩))
    ∧ (∀ r p, alookup st repo = some r → alookup r pkg = some p →
        (NewPackageLogger st repo pkg).1 = st)
    ∧ (NewPackageLogger (NewPackageLogger st repo pkg).1 repo pkg =
        ((NewPackageLogger st repo pkg).1, (repo, pkg)))
    ∧ (∀ l, readLevel (setLevelViaHandle (NewPackageLogger st repo pkg).1
        (NewPackageLogger st repo pkg).2 l)
        (NewPackageLogger st repo pkg).2 = some l) := by
  refine ⟨rfl, fun h1 => ?_, fun r h1 h2 => ?_, fun r p h1 h2 => ?_,
    newPackageLogger_idem st repo pkg, fun l => ?_⟩
  · simp [NewPackageLogger, h1, alookup_ainsert_self, alookup, ainsert,
      ainsert_ainsert_self]
  · simp [NewPackageLogger, h1, h2]
  · simp [NewPackageLogger, h1, h2]
  · rw [show (NewPackageLogger st repo pkg).2 = (repo, pkg) from rfl,
      readLevel_setLevelViaHandle]
    obtain ⟨v, hv⟩ := Option.isSome_iff_exists.mp
      (readLevel_newPackageLogger_isSome st repo pkg)
    rw [hv]
    rfl

/-- Witness for C1 at concrete inputs: fresh creation from the empty registry,
creation of a second package in an existing repository, no reset of an
existing package's level, idempotence of the repeated call, and observability
of a level change through the returned handle. -/
theorem NewPackageLogger_idempotent_registration_witness :
    ((NewPackageLogger [] "repoA" "pkgA").1 =
      [("repoA", [("pkgA", ⟨"pkgA", INFO⟩)])])
    ∧ ((NewPackageLogger [("repoA", [("pkgA", ⟨"pkgA", INFO⟩)])] "repoA"
        "pkgB").1 =
      [("repoA", [("pkgA", ⟨"pkgA", INFO⟩), ("pkgB", ⟨"pkgB", INFO⟩)])])
    ∧ ((NewPackageLogger [("repoA", [("pkgA", ⟨"pkgA", TRACE⟩)])] "repoA"
        "pkgA").1 = [("repoA", [("pkgA", ⟨"pkgA", TRACE⟩)])])
    ∧ (NewPackageLogger (NewPackageLogger [] "repoA" "pkgA").1 "repoA" "pkgA" =
        ((NewPackageLogger [] "repoA" "pkgA").1, ("repoA", "pkgA")))
    ∧ (readLevel (setLevelViaHandle (NewPackageLogger [] "repoA" "pkgA").1
        (NewPackageLogger [] "repoA" "pkgA").2 DEBUG)
        (NewPackageLogger [] "repoA" "pkgA").2 = some DEBUG) :=
  ⟨((NewPackageLogger_idempotent_registration [] "repoA" "pkgA").2.1
      (by decide)).trans (by decide),
   ((NewPackageLogger_idempotent_registration
      [("repoA", [("pkgA", ⟨"pkgA", INFO⟩)])] "repoA" "pkgB").2.2.1
      [("pkgA", ⟨"pkgA", INFO⟩)] (by decide) (by decide)).trans (by decide),
   (NewPackageLogger_idempotent_registration
      [("repoA", [("pkgA", ⟨"pkgA", TRACE⟩)])] "repoA" "pkgA").2.2.2.1
      [("pkgA", ⟨"pkgA", TRACE⟩)] ⟨"pkgA", TRACE⟩ (by decide) (by decide),
   (NewPackageLogger_idempotent_registration [] "repoA" "pkgA").2.2.2.2.1,
   (NewPackageLogger_idempotent_registration [] "repoA" "pkgA").2.2.2.2.2
     DEBUG⟩

/-- C2: `SetLogLevel` applies the `"*"` key (when present) first as a blanket
baseline and every other key afterwards: for a map `m` with unique keys, the
resulting level of a registered package `k` is `m`'s entry for `k` when
present, otherwise `m`'s `"*"` entry when present, otherwise the old level;
registration is unchanged. -/
theorem SetLogLevel_star_baseline (r : RepoLoggerMap)
    (m : List (String × LogLevel)) (hm : (m.map Prod.fst).Nodup)
    (k : String) :
    readPkgLevel (SetLogLevel r m) k =
      (readPkgLevel r k).map (fun old =>
        match alookup m k with
        | some v => v
        | none =>
          match alookup m "*" with
          | some l => l
          | none => old) := by
  unfold SetLogLevel
  rw [readPkgLevel_foldl_steps, alookup_reverse_of_nodup m hm]
  cases hk : alookup m k with
  | some v =>
    cases hs : alookup m "*" with
    | some l =>
      simp only [readPkgLevel_setRepoLogLevelInternal]
      cases readPkgLevel r k <;> rfl
    | none => cases readPkgLevel r k <;> rfl
  | none =>
    cases hs : alookup m "*" with
    | some l => simp only [readPkgLevel_setRepoLogLevelInternal]
    | none => cases readPkgLevel r k <;> rfl

/-- Witness for C2: on packages `a` and `b` both at `INFO`, the map parsed
from `"*=ERROR,b=DEBUG"` leaves `a` at `ERROR` and `b` at `DEBUG`. -/
theorem SetLogLevel_star_baseline_witness :
    (ParseLogLevelConfig "*=ERROR,b=DEBUG" = .ok [("*", ERROR), ("b", DEBUG)])
    ∧ (readPkgLevel (SetLogLevel [("a", ⟨"a", INFO⟩), ("b", ⟨"b", INFO⟩)]
        [("*", ERROR), ("b", DEBUG)]) "a" = some ERROR)
    ∧ (readPkgLevel (SetLogLevel [("a", ⟨"a", INFO⟩), ("b", ⟨"b", INFO⟩)]
        [("*", ERROR), ("b", DEBUG)]) "b" = some DEBUG) :=
  ⟨by decide,
   (SetLogLevel_star_baseline [("a", ⟨"a", INFO⟩), ("b", ⟨"b", INFO⟩)]
      [("*", ERROR), ("b", DEBUG)] (by decide) "a").trans (by decide),
   (SetLogLevel_star_baseline [("a", ⟨"a", INFO⟩), ("b", ⟨"b", INFO⟩)]
      [("*", ERROR), ("b", DEBUG)] (by decide) "b").trans (by decide)⟩

/-- C3: `ParseLevel` is a left-inverse of the serializations: each canonical
uppercase name parses to its level, the character returned by `Char` parses
back to its level, the digit strings `"0"`..`"5"` parse to `ERROR`..`TRACE`,
and `CRITICAL` has no digit alias (`"-1"` is rejected). -/
theorem ParseLevel_left_inverse :
    (ParseLevel "CRITICAL" = .ok CRITICAL) ∧ (ParseLevel "ERROR" = .ok ERROR)
    ∧ (ParseLevel "WARNING" = .ok WARNING) ∧ (ParseLevel "NOTICE" = .ok NOTICE)
    ∧ (ParseLevel "INFO" = .ok INFO) ∧ (ParseLevel "DEBUG" = .ok DEBUG)
    ∧ (ParseLevel "TRACE" = .ok TRACE)
    ∧ ((LogLevel.Char CRITICAL).map ParseLevel = some (.ok CRITICAL))
    ∧ ((LogLevel.Char ERROR).map ParseLevel = some (.ok ERROR))
    ∧ ((LogLevel.Char WARNING).map ParseLevel = some (.ok WARNING))
    ∧ ((LogLevel.Char NOTICE).map ParseLevel = some (.ok NOTICE))
    ∧ ((LogLevel.Char INFO).map ParseLevel = some (.ok INFO))
    ∧ ((LogLevel.Char DEBUG).map ParseLevel = some (.ok DEBUG))
    ∧ ((LogLevel.Char TRACE).map ParseLevel = some (.ok TRACE))
    ∧ (ParseLevel "0" = .ok ERROR) ∧ (ParseLevel "1" = .ok WARNING)
    ∧ (ParseLevel "2" = .ok NOTICE) ∧ (ParseLevel "3" = .ok INFO)
    ∧ (ParseLevel "4" = .ok DEBUG) ∧ (ParseLevel "5" = .ok TRACE)
    ∧ (ParseLevel "-1" = .error "couldn't parse log level -1") := by
  decide

/-- C4: `SetGlobalLogLevel l` sets the level of every package logger in every
registered repository to `l`, regardless of its prior level, and never fails
(it is a total function on the registry state). -/
theorem SetGlobalLogLevel_sets_all (st : RepoMap) (l : LogLevel)
    (repo pkg : String) :
    readLevel (SetGlobalLogLevel st l) (repo, pkg) =
      (readLevel st (repo, pkg)).map (fun _ => l) := by
  unfold SetGlobalLogLevel readLevel
  rw [alookup_map_snd]
  cases h1 : alookup st repo with
  | none => rfl
  | some r =>
    have h2 := readPkgLevel_setRepoLogLevelInternal r l pkg
    simp only [readPkgLevel] at h2
    simpa using h2

/-- C5: `SetLogLevel` silently ignores unknown package names: a map without
the `"*"` key whose keys are all unregistered leaves the repo logger exactly
unchanged (and, being a total function, raises no error). -/
theorem SetLogLevel_unknown_ignored (r : RepoLoggerMap)
    (m : List (String × LogLevel)) (hstar : alookup m "*" = none)
    (hunk : ∀ kv ∈ m, alookup r kv.1 = none) :
    SetLogLevel r m = r := by
  simp only [SetLogLevel, hstar]
  exact foldl_steps_unknown m r hunk

/-- Witness for C5: `{unknownpkg ↦ TRACE}` applied to a repo with packages
`a`, `b` changes nothing. -/
theorem SetLogLevel_unknown_ignored_witness :
    SetLogLevel [("a", ⟨"a", INFO⟩), ("b", ⟨"b", INFO⟩)]
      [("unknownpkg", TRACE)] =
      [("a", ⟨"a", INFO⟩), ("b", ⟨"b", INFO⟩)] :=
  SetLogLevel_unknown_ignored _ _ (by decide) (by decide)

/-- C6: `RepoLogger` fails with a not-found error naming the repository
exactly when the repository was never registered, never modifies the registry
state, and succeeds with the handle otherwise; `MustRepoLogger` performs the
same lookup but panics (`none`) exactly on the failure case. -/
theorem RepoLogger_not_found (st : RepoMap) (repo : String) :
    ((RepoLogger st repo).1 = st)
    ∧ (alookup st repo = none →
        RepoLogger st repo =
          (st, .error ("no packages registered for repo " ++ repo))
        ∧ MustRepoLogger st repo = none)
    ∧ (∀ r, alookup st repo = some r →
        RepoLogger st repo = (st, .ok r)
        ∧ MustRepoLogger st repo = some (st, r)) := by
  refine ⟨?_, fun h => ?_, fun r h => ?_⟩
  · unfold RepoLogger
    cases alookup st repo <;> rfl
  · constructor <;> simp [RepoLogger, MustRepoLogger, h]
  · constructor <;> simp [RepoLogger, MustRepoLogger, h]

/-- Witness for C6: the empty registry has no repo `"unknown"`; the lookup
errors with the message naming it, `MustRepoLogger` panics, and the state is
returned unchanged. -/
theorem RepoLogger_not_found_witness :
    (RepoLogger [] "unknown" =
      ([], .error "no packages registered for repo unknown"))
    ∧ (MustRepoLogger [] "unknown" = none)
    ∧ ((RepoLogger [] "unknown").1 = []) :=
  ⟨((RepoLogger_not_found [] "unknown").2.1 (by decide)).1.trans (by decide),
   ((RepoLogger_not_found [] "unknown").2.1 (by decide)).2,
   (RepoLogger_not_found [] "unknown").1⟩

/-- C7: `ParseLogLevelConfig` splits on `,` in input order; a token that does
not split on `=` into exactly two parts makes the whole call fail with a
structural-format error naming that token, a `ParseLevel` failure propagates
and aborts the parse with only that error, and on success the map of the
tokens in input order is returned (the function touches no registry state:
it takes none). -/
theorem ParseLogLevelConfig_token_errors :
    (ParseLogLevelConfig "a=INFO=extra" =
      .error "oddly structured `pkg=level` option: a=INFO=extra")
    ∧ (ParseLogLevelConfig "a=bogus,b=INFO" =
      .error "couldn't parse log level bogus")
    ∧ (ParseLogLevelConfig "b=DEBUG,a=TRACE" = .ok [("b", DEBUG), ("a", TRACE)])
    ∧ (∀ conf t, t ∈ goSplit conf ',' → (goSplit t '=').length ≠ 2 →
        ∃ e, ParseLogLevelConfig conf = .error e) :=
  ⟨by decide, by decide, by decide,
   fun _ t ht hbad => parseAux_error_of_bad_token _ _ t ht hbad⟩

/-- Witness for C7: the token `"a=INFO=extra"` of the same config splits on
`=` into three parts, so the parse fails. -/
theorem ParseLogLevelConfig_token_errors_witness :
    ("a=INFO=extra" ∈ goSplit "a=INFO=extra" ','
      ∧ (goSplit "a=INFO=extra" '=').length ≠ 2)
    ∧ ∃ e, ParseLogLevelConfig "a=INFO=extra" = .error e :=
  ⟨⟨by decide, by decide⟩,
   ParseLogLevelConfig_token_errors.2.2.2 "a=INFO=extra" "a=INFO=extra"
     (by decide) (by decide)⟩

/-- C8: on any string that is none of the accepted forms, `ParseLevel`
returns (not panics) an error whose message contains the offending input. -/
theorem ParseLevel_bad_input (s : String)
    (h : s ∉ (["CRITICAL", "C", "ERROR", "0", "E", "WARNING", "1", "W",
      "NOTICE", "2", "N", "INFO", "3", "I", "DEBUG", "4", "D",
      "TRACE", "5", "T"] : List String)) :
    ParseLevel s = .error ("couldn't parse log level " ++ s)
    ∧ ∃ pre, ParseLevel s = .error (pre ++ s) := by
  simp only [List.mem_cons, List.not_mem_nil, or_false] at h
  push_neg at h
  obtain ⟨h1, h2, h3, h4, h5, h6, h7, h8, h9, h10, h11, h12, h13, h14, h15,
    h16, h17, h18, h19, h20⟩ := h
  have he : ParseLevel s = .error ("couldn't parse log level " ++ s) := by
    simp [ParseLevel, h1, h2, h3, h4, h5, h6, h7, h8, h9, h10, h11, h12, h13,
      h14, h15, h16, h17, h18, h19, h20]
  exact ⟨he, "couldn't parse log level ", he⟩

/-- Witness for C8: `ParseLevel "bogus"` fails with an error containing
`"bogus"`. -/
theorem ParseLevel_bad_input_witness :
    ParseLevel "bogus" = .error "couldn't parse log level bogus" :=
  (ParseLevel_bad_input "bogus" (by decide)).1.trans (by decide)

/-- C9: `Char` returns the seven distinct single-character strings on the
seven levels and fails (panics, modelled as `none`) on every other integer
value. -/
theorem Char_distinct_and_partial :
    (LogLevel.Char CRITICAL = some "C") ∧ (LogLevel.Char ERROR = some "E")
    ∧ (LogLevel.Char WARNING = some "W") ∧ (LogLevel.Char NOTICE = some "N")
    ∧ (LogLevel.Char INFO = some "I") ∧ (LogLevel.Char DEBUG = some "D")
    ∧ (LogLevel.Char TRACE = some "T")
    ∧ (["C", "E", "W", "N", "I", "D", "T"] : List String).Nodup
    ∧ (∀ l : LogLevel,
        l ∉ ([CRITICAL, ERROR, WARNING, NOTICE, INFO, DEBUG, TRACE] :
          List LogLevel) →
        LogLevel.Char l = none) := by
  refine ⟨rfl, rfl, rfl, rfl, rfl, rfl, rfl, by decide, fun l h => ?_⟩
  simp only [List.mem_cons, List.not_mem_nil, or_false] at h
  push_neg at h
  obtain ⟨h1, h2, h3, h4, h5, h6, h7⟩ := h
  simp [LogLevel.Char, h1, h2, h3, h4, h5, h6, h7]

/-- Witness for C9: the out-of-range value `10` is not one of the seven
levels and `Char` fails on it. -/
theorem Char_distinct_and_partial_witness :
    ((10 : LogLevel) ∉ ([CRITICAL, ERROR, WARNING, NOTICE, INFO, DEBUG,
      TRACE] : List LogLevel))
    ∧ LogLevel.Char 10 = none :=
  ⟨by decide, Char_distinct_and_partial.2.2.2.2.2.2.2.2 10 (by decide)⟩

/-- C10: `ParseLogLevelConfig` rejects the empty configuration string (the
single empty token does not split into two `=`-parts), and likewise any
empty token from a leading, trailing, or doubled comma. -/
theorem ParseLogLevelConfig_empty_token :
    (ParseLogLevelConfig "" = .error "oddly structured `pkg=level` option: ")
    ∧ (ParseLogLevelConfig ",a=INFO" =
        .error "oddly structured `pkg=level` option: ")
    ∧ (ParseLogLevelConfig "a=INFO," =
        .error "oddly structured `pkg=level` option: ")
    ∧ (ParseLogLevelConfig "a=INFO,,b=DEBUG" =
        .error "oddly structured `pkg=level` option: ")
    ∧ (∀ conf, "" ∈ goSplit conf ',' →
        ∃ e, ParseLogLevelConfig conf = .error e) :=
  ⟨by decide, by decide, by decide, by decide,
   fun _ h => parseAux_error_of_bad_token _ _ "" h (by decide)⟩

/-- Witness for C10: `","` splits into two empty tokens and the parse
fails. -/
theorem ParseLogLevelConfig_empty_token_witness :
    ("" ∈ goSplit "," ',')
    ∧ ∃ e, ParseLogLevelConfig "," = .error e :=
  ⟨by decide, ParseLogLevelConfig_empty_token.2.2.2.2 "," (by decide)⟩

end Capnslog
